import Mathlib

/-!
Shallow embedding of the convoy physics core of simutrans (convoy.h):
the aggregate summaries, the lazy validity-bit caching layer of
`lazy_convoy_t`, and the fixed-point unit conversions.

Machine integers are modelled as `Nat`/`Int`; the `uint32` fields wrap
modulo `2 ^ 32` where the source type does, and `sint32` fields are
modelled as `Int` (signed overflow is undefined behaviour in the source,
so in-range behaviour is what is being verified).

The numeric type `float32e8_t` lives in `utils/float32e8_t.h`, which is
not among the sources here; following the specification it is modelled
as exact rational numbers with an explicit truncating conversion to
`sint32`.
-/

/-- KMH_SPEED_UNLIMITED from convoy.h: the sentinel max speed (km/h) of a
convoy with no vehicles. -/
def KMH_SPEED_UNLIMITED : Int := 300000

/-- Modulus of the C type uint32. -/
def UINT32_MOD : Nat := 2 ^ 32

/-- The fields of a vehicle descriptor (`vehikel_besch_t`) that
`vehicle_summary_t::add_vehicle` reads: `get_length()` (a `uint8`, in
1/OBJECT_OFFSET_STEPS of a tile), `get_gewicht()` (a `uint16`, unladen
weight in tonnes) and `get_geschw()` (a `uint16`, top speed in km/h). -/
structure vehikel_besch_t where
  length : Nat
  gewicht : Nat
  geschw : Nat
  deriving DecidableEq, Repr

/-- `vehicle_summary_t`: aggregate of a vehicle list.  `length` and
`tiles` are `uint32`, `weight` and `max_speed` are `sint32`. -/
structure vehicle_summary_t where
  length : Nat
  tiles : Nat
  weight : Int
  max_speed : Int
  deriving DecidableEq, Repr

/-- `vehicle_summary_t::clear()`: zero everything and set the "no speed
limit" sentinel. -/
def vehicle_summary_t.clear (_s : vehicle_summary_t) : vehicle_summary_t :=
  { length := 0, tiles := 0, weight := 0, max_speed := KMH_SPEED_UNLIMITED }

/-- `vehicle_summary_t::add_vehicle(const vehikel_besch_t &b)`:
`length += b.get_length(); weight += b.get_gewicht();
max_speed = min(max_speed, b.get_geschw());`. -/
def vehicle_summary_t.add_vehicle (s : vehicle_summary_t) (b : vehikel_besch_t) :
    vehicle_summary_t :=
  { s with
    length := (s.length + b.length) % UINT32_MOD
    weight := s.weight + (b.gewicht : Int)
    max_speed := min s.max_speed (b.geschw : Int) }

/-- OBJECT_OFFSET_STEPS (simconst.h, not among these sources): the number
of vehicle offset steps per tile; its standard value 16 is used.  The
claims use it only symbolically. -/
def OBJECT_OFFSET_STEPS : Nat := 16

/-- `vehicle_summary_t::update_summary(uint8 length_of_last_vehicle)`:
converts the accumulated weight from tonnes to kg and derives the tile
count with the tail-vehicle correction of `convoi_t::get_tile_length()`.
The numerator of the tile count is `uint32` arithmetic, so it wraps
modulo `2 ^ 32` (a single reduction of the whole nonnegative sum equals
the per-operation wrapping of the C expression). -/
def vehicle_summary_t.update_summary (s : vehicle_summary_t)
    (length_of_last_vehicle : Nat) : vehicle_summary_t :=
  { s with
    tiles := ((s.length + (max 8 length_of_last_vehicle - length_of_last_vehicle)
                + OBJECT_OFFSET_STEPS - 1) % UINT32_MOD) / OBJECT_OFFSET_STEPS
    weight := s.weight * 1000 }

/-- The aggregation pattern of the callers of `vehicle_summary_t`:
`clear()` followed by `add_vehicle` for each vehicle of the list. -/
def build_vehicle_summary (bs : List vehikel_besch_t) : vehicle_summary_t :=
  bs.foldl vehicle_summary_t.add_vehicle
    (vehicle_summary_t.clear { length := 0, tiles := 0, weight := 0, max_speed := 0 })

lemma foldl_add_vehicle_length (bs : List vehikel_besch_t) :
    ∀ s : vehicle_summary_t, s.length < UINT32_MOD →
      (bs.foldl vehicle_summary_t.add_vehicle s).length
        = (s.length + (bs.map vehikel_besch_t.length).sum) % UINT32_MOD := by
  induction bs with
  | nil =>
      intro s hs
      simp [Nat.mod_eq_of_lt hs]
  | cons b bs ih =>
      intro s hs
      have hlt : (s.length + b.length) % UINT32_MOD < UINT32_MOD :=
        Nat.mod_lt _ (by decide)
      simp only [List.foldl_cons, List.map_cons, List.sum_cons]
      rw [ih _ hlt]
      show ((s.length + b.length) % UINT32_MOD + (List.map vehikel_besch_t.length bs).sum)
          % UINT32_MOD = _
      rw [Nat.mod_add_mod]
      ring_nf

lemma foldl_add_vehicle_weight (bs : List vehikel_besch_t) :
    ∀ s : vehicle_summary_t,
      (bs.foldl vehicle_summary_t.add_vehicle s).weight
        = s.weight + (bs.map fun b => (b.gewicht : Int)).sum := by
  induction bs with
  | nil => intro s; simp
  | cons b bs ih =>
      intro s
      simp only [List.foldl_cons, List.map_cons, List.sum_cons]
      rw [ih]
      show s.weight + (b.gewicht : Int) + _ = _
      ring

lemma foldl_add_vehicle_max_speed (bs : List vehikel_besch_t) :
    ∀ s : vehicle_summary_t,
      (bs.foldl vehicle_summary_t.add_vehicle s).max_speed
        = (bs.map fun b => (b.geschw : Int)).foldl min s.max_speed := by
  induction bs with
  | nil => intro s; simp
  | cons b bs ih =>
      intro s
      simp only [List.foldl_cons, List.map_cons]
      rw [ih]
      rfl

lemma foldl_min_mem_or_start (l : List Int) :
    ∀ a : Int, l.foldl min a = a ∨ l.foldl min a ∈ l := by
  induction l with
  | nil => intro a; left; rfl
  | cons x l ih =>
      intro a
      rcases ih (min a x) with h | h
      · rw [List.foldl_cons, h]
        rcases le_total a x with hax | hxa
        · left; exact min_eq_left hax
        · right; rw [min_eq_right hxa]; exact List.mem_cons_self x l
      · right
        rw [List.foldl_cons]
        exact List.mem_cons_of_mem x h

lemma foldl_min_le_start (l : List Int) :
    ∀ a : Int, l.foldl min a ≤ a := by
  induction l with
  | nil => intro a; exact le_refl a
  | cons x l ih =>
      intro a
      calc (x :: l).foldl min a = l.foldl min (min a x) := by rw [List.foldl_cons]
        _ ≤ min a x := ih _
        _ ≤ a := min_le_left _ _

lemma foldl_min_le_mem (l : List Int) :
    ∀ (a b : Int), b ∈ l → l.foldl min a ≤ b := by
  induction l with
  | nil => intro a b hb; cases hb
  | cons x l ih =>
      intro a b hb
      rw [List.foldl_cons]
      rcases List.mem_cons.mp hb with rfl | hb
      · calc l.foldl min (min a b) ≤ min a b := foldl_min_le_start l _
          _ ≤ b := min_le_right _ _
      · exact ih _ _ hb

/-- C3: for an empty vehicle list (`vehicle_summary_t::clear` with no
subsequent `add_vehicle`), the summary holds the documented sentinel:
`max_speed = KMH_SPEED_UNLIMITED = 300000` km/h and `length`, `tiles`
and `weight` are all zero. -/
theorem C3_empty_vehicle_summary_sentinel (s : vehicle_summary_t) :
    (s.clear).max_speed = KMH_SPEED_UNLIMITED ∧ KMH_SPEED_UNLIMITED = 300000 ∧
    (s.clear).length = 0 ∧ (s.clear).tiles = 0 ∧ (s.clear).weight = 0 :=
  ⟨rfl, rfl, rfl, rfl, rfl⟩

/-- C4: for every nonempty sequence of vehicles added via
`vehicle_summary_t::add_vehicle` after `clear()` (with the fields in the
range of their C types and the total length not overflowing `uint32`),
the summary's `length` is the sum of the vehicles' lengths, `weight` the
sum of their unladen weights, and `max_speed` the minimum over all added
vehicles of their individual top speed. -/
theorem C4_add_vehicle_aggregates (bs : List vehikel_besch_t)
    (hne : bs ≠ [])
    (hspeed : ∀ b ∈ bs, b.geschw ≤ 65535)
    (hlen : (bs.map vehikel_besch_t.length).sum < UINT32_MOD) :
    (build_vehicle_summary bs).length = (bs.map vehikel_besch_t.length).sum ∧
    (build_vehicle_summary bs).weight = (bs.map fun b => (b.gewicht : Int)).sum ∧
    ((build_vehicle_summary bs).max_speed ∈ bs.map (fun b => (b.geschw : Int)) ∧
      ∀ b ∈ bs, (build_vehicle_summary bs).max_speed ≤ (b.geschw : Int)) := by
  refine ⟨?_, ?_, ?_, ?_⟩
  · rw [build_vehicle_summary, foldl_add_vehicle_length bs _ (by decide)]
    show (0 + _) % UINT32_MOD = _
    rw [Nat.zero_add]
    exact Nat.mod_eq_of_lt hlen
  · rw [build_vehicle_summary, foldl_add_vehicle_weight]
    show (0 : Int) + _ = _
    rw [zero_add]
  · rw [build_vehicle_summary, foldl_add_vehicle_max_speed]
    rcases foldl_min_mem_or_start (bs.map fun b => (b.geschw : Int))
        ((vehicle_summary_t.clear
          { length := 0, tiles := 0, weight := 0, max_speed := 0 }).max_speed)
      with h | h
    · -- the fold cannot stay at the 300000 sentinel: the list is nonempty
      -- and every element is at most 65535
      exfalso
      rcases bs with _ | ⟨b, bs⟩
      · exact hne rfl
      · have hb : (b.geschw : Int) ∈ (b :: bs).map (fun b => (b.geschw : Int)) :=
          List.mem_map_of_mem _ (List.mem_cons_self b bs)
        have hle := foldl_min_le_mem ((b :: bs).map fun b => (b.geschw : Int))
          ((vehicle_summary_t.clear
            { length := 0, tiles := 0, weight := 0, max_speed := 0 }).max_speed)
          ((b.geschw : Int)) hb
        rw [h] at hle
        have hKMH : (vehicle_summary_t.clear
            { length := 0, tiles := 0, weight := 0, max_speed := 0 }).max_speed
            = (300000 : Int) := rfl
        rw [hKMH] at hle
        have hbb : b.geschw ≤ 65535 := hspeed b (List.mem_cons_self b bs)
        have h2 : ((b.geschw : Int)) ≤ 65535 := by exact_mod_cast hbb
        omega
    · exact h
  · rw [build_vehicle_summary, foldl_add_vehicle_max_speed]
    intro b hb
    exact foldl_min_le_mem _ _ _ (List.mem_map_of_mem _ hb)

/-- C4 witness: the aggregation evaluated on a concrete two-vehicle list. -/
theorem C4_add_vehicle_aggregates_witness :
    ([({ length := 8, gewicht := 100, geschw := 120 } : vehikel_besch_t),
      { length := 6, gewicht := 50, geschw := 90 }] ≠ ([] : List vehikel_besch_t)) ∧
    (build_vehicle_summary
        [{ length := 8, gewicht := 100, geschw := 120 },
         { length := 6, gewicht := 50, geschw := 90 }]).length
      = ([{ length := 8, gewicht := 100, geschw := 120 },
          ({ length := 6, gewicht := 50, geschw := 90 } : vehikel_besch_t)].map
            vehikel_besch_t.length).sum :=
  ⟨by decide,
   (C4_add_vehicle_aggregates
      [{ length := 8, gewicht := 100, geschw := 120 },
       { length := 6, gewicht := 50, geschw := 90 }]
      (by decide) (by decide) (by decide)).1⟩

/-- C9: `update_summary` multiplies the accumulated weight by 1000
(tonnes to kg) and — whenever the tail-corrected numerator fits in a
`uint32`, so that no wrap occurs — sets `tiles` to the tail-corrected
length divided by OBJECT_OFFSET_STEPS rounded up (characterised as the
least tile count covering the corrected length); hence it is not
idempotent: applying it twice multiplies the weight by 1000 twice. -/
theorem C9_update_summary_weight_and_tiles (s : vehicle_summary_t) (lol : Nat)
    (hfit : s.length + (max 8 lol - lol) + OBJECT_OFFSET_STEPS - 1 < UINT32_MOD) :
    (s.update_summary lol).weight = s.weight * 1000 ∧
    (s.length + (max 8 lol - lol)
        ≤ (s.update_summary lol).tiles * OBJECT_OFFSET_STEPS ∧
      ∀ n : Nat, s.length + (max 8 lol - lol) ≤ n * OBJECT_OFFSET_STEPS →
        (s.update_summary lol).tiles ≤ n) ∧
    ((s.update_summary lol).update_summary lol).weight = s.weight * 1000 * 1000 ∧
    (s.weight ≠ 0 →
      ((s.update_summary lol).update_summary lol).weight
        ≠ (s.update_summary lol).weight) := by
  have hmod : (s.length + (max 8 lol - lol) + OBJECT_OFFSET_STEPS - 1) % UINT32_MOD
      = s.length + (max 8 lol - lol) + OBJECT_OFFSET_STEPS - 1 :=
    Nat.mod_eq_of_lt hfit
  refine ⟨rfl, ⟨?_, ?_⟩, rfl, ?_⟩
  · show s.length + (max 8 lol - lol)
        ≤ ((s.length + (max 8 lol - lol) + OBJECT_OFFSET_STEPS - 1) % UINT32_MOD)
            / OBJECT_OFFSET_STEPS * OBJECT_OFFSET_STEPS
    rw [hmod]
    have hd := Nat.div_add_mod
      (s.length + (max 8 lol - lol) + OBJECT_OFFSET_STEPS - 1) OBJECT_OFFSET_STEPS
    have hm : (s.length + (max 8 lol - lol) + OBJECT_OFFSET_STEPS - 1)
        % OBJECT_OFFSET_STEPS < OBJECT_OFFSET_STEPS := Nat.mod_lt _ (by decide)
    show _ ≤ _ * OBJECT_OFFSET_STEPS
    rw [OBJECT_OFFSET_STEPS] at hd hm ⊢
    omega
  · intro n hn
    show ((s.length + (max 8 lol - lol) + OBJECT_OFFSET_STEPS - 1) % UINT32_MOD)
        / OBJECT_OFFSET_STEPS ≤ n
    rw [hmod]
    have hd := Nat.div_add_mod
      (s.length + (max 8 lol - lol) + OBJECT_OFFSET_STEPS - 1) OBJECT_OFFSET_STEPS
    have hm : (s.length + (max 8 lol - lol) + OBJECT_OFFSET_STEPS - 1)
        % OBJECT_OFFSET_STEPS < OBJECT_OFFSET_STEPS := Nat.mod_lt _ (by decide)
    rw [OBJECT_OFFSET_STEPS] at hd hm hn ⊢
    omega
  · intro hw
    show s.weight * 1000 * 1000 ≠ s.weight * 1000
    omega

/-- C9 witness: non-idempotence of `update_summary` on a concrete summary
with weight 5 tonnes (becomes 5000 kg, then wrongly 5000000 on a second
application); the concrete tail-corrected numerator fits in `uint32`. -/
theorem C9_update_summary_weight_and_tiles_witness :
    (({ length := 10, tiles := 0, weight := 5, max_speed := 300000 }
        : vehicle_summary_t).length + (max 8 4 - 4) + OBJECT_OFFSET_STEPS - 1
      < UINT32_MOD) ∧
    (({ length := 10, tiles := 0, weight := 5, max_speed := 300000 }
        : vehicle_summary_t).weight ≠ 0) ∧
    ((({ length := 10, tiles := 0, weight := 5, max_speed := 300000 }
          : vehicle_summary_t).update_summary 4).update_summary 4).weight
      ≠ (({ length := 10, tiles := 0, weight := 5, max_speed := 300000 }
          : vehicle_summary_t).update_summary 4).weight :=
  ⟨by decide, by decide,
   (C9_update_summary_weight_and_tiles
      { length := 10, tiles := 0, weight := 5, max_speed := 300000 } 4
      (by decide)).2.2.2 (by decide)⟩

/-- `adverse_summary_t`: way/environment resistance coefficients.  The
`float32e8_t` fields are modelled as exact rationals. -/
structure adverse_summary_t where
  cf : ℚ
  fr : ℚ
  br : ℚ
  max_speed : Int
  deriving DecidableEq

/-- `adverse_summary_t::clear()` (note: `br` is left untouched by the
source). -/
def adverse_summary_t.clear (s : adverse_summary_t) : adverse_summary_t :=
  { s with cf := 0, fr := 0, max_speed := KMH_SPEED_UNLIMITED }

/-- `freight_summary_t`: min/max possible freight weight in kg. -/
structure freight_summary_t where
  min_freight_weight : Int
  max_freight_weight : Int
  deriving DecidableEq

/-- `freight_summary_t::clear()`. -/
def freight_summary_t.clear (_s : freight_summary_t) : freight_summary_t :=
  { min_freight_weight := 0, max_freight_weight := 0 }

/-- `weight_summary_t`: resolved mass and its sin/cos slope scaling. -/
structure weight_summary_t where
  weight : Int
  weight_cos : ℚ
  weight_sin : ℚ
  deriving DecidableEq

/-- The `cd_*` validity bits of `enum convoy_detail_e`:
bit 0 = vehicle, bit 1 = adverse, bit 2 = freight, bit 3 = weight,
bit 4 = starting force, bit 5 = continuous power. -/
def cd_vehicle_summary : Nat := 0x01

/-- `cd_adverse_summary` of `enum convoy_detail_e`. -/
def cd_adverse_summary : Nat := 0x02

/-- `cd_freight_summary` of `enum convoy_detail_e`. -/
def cd_freight_summary : Nat := 0x04

/-- `cd_weight_summary` of `enum convoy_detail_e`. -/
def cd_weight_summary : Nat := 0x08

/-- `cd_starting_force` of `enum convoy_detail_e`. -/
def cd_starting_force : Nat := 0x10

/-- `cd_continuous_power` of `enum convoy_detail_e`. -/
def cd_continuous_power : Nat := 0x20

/-- The mutable state of a `lazy_convoy_t` (with the `convoy_t` base
fields `vehicle`/`adverse` and, for the `existing_convoy_t` descendant,
the cached `weight` summary flattened in).  `is_valid` is a C `int` that
only ever holds ORs of the `cd_*` bits, hence a `Nat` here. -/
structure lazy_convoy_t where
  vehicle : vehicle_summary_t
  adverse : adverse_summary_t
  freight : freight_summary_t
  weight : weight_summary_t
  starting_force : Int
  continuous_power : Int
  is_valid : Nat
  deriving DecidableEq

/-- The virtual `update_*` hooks that the descendants
(`potential_convoy_t`, `existing_convoy_t`) implement outside convoy.h;
they receive the summary by reference and recompute it, so here they are
arbitrary functions on the summary. -/
structure update_hooks_t where
  update_vehicle_summary : vehicle_summary_t → vehicle_summary_t
  update_adverse_summary : adverse_summary_t → adverse_summary_t
  update_freight_summary : freight_summary_t → freight_summary_t
  update_weight_summary : weight_summary_t → weight_summary_t

/-- `lazy_convoy_t::invalidate_vehicle_summary()`:
`is_valid &= ~(cd_vehicle_summary|cd_adverse_summary|cd_weight_summary|
cd_starting_force|cd_continuous_power);` — `Nat.ldiff` is `x & ~m` on
the nonnegative `is_valid`. -/
def lazy_convoy_t.invalidate_vehicle_summary (s : lazy_convoy_t) : lazy_convoy_t :=
  { s with
    is_valid :=
      s.is_valid.ldiff
        (cd_vehicle_summary ||| cd_adverse_summary ||| cd_weight_summary
          ||| cd_starting_force ||| cd_continuous_power) }

/-- `lazy_convoy_t::invalidate_adverse_summary()`:
`is_valid &= ~(cd_adverse_summary|cd_weight_summary);`. -/
def lazy_convoy_t.invalidate_adverse_summary (s : lazy_convoy_t) : lazy_convoy_t :=
  { s with is_valid := s.is_valid.ldiff (cd_adverse_summary ||| cd_weight_summary) }

/-- `lazy_convoy_t::invalidate_freight_summary()`:
`is_valid &= ~(cd_freight_summary);`. -/
def lazy_convoy_t.invalidate_freight_summary (s : lazy_convoy_t) : lazy_convoy_t :=
  { s with is_valid := s.is_valid.ldiff cd_freight_summary }

/-- `lazy_convoy_t::validate_vehicle_summary()`: if the bit is clear, set
it and recompute the summary through the virtual hook. -/
def lazy_convoy_t.validate_vehicle_summary (s : lazy_convoy_t) (h : update_hooks_t) :
    lazy_convoy_t :=
  if s.is_valid &&& cd_vehicle_summary = 0 then
    { s with is_valid := s.is_valid ||| cd_vehicle_summary
             vehicle := h.update_vehicle_summary s.vehicle }
  else s

/-- `lazy_convoy_t::validate_adverse_summary()`. -/
def lazy_convoy_t.validate_adverse_summary (s : lazy_convoy_t) (h : update_hooks_t) :
    lazy_convoy_t :=
  if s.is_valid &&& cd_adverse_summary = 0 then
    { s with is_valid := s.is_valid ||| cd_adverse_summary
             adverse := h.update_adverse_summary s.adverse }
  else s

/-- `lazy_convoy_t::validate_freight_summary()`. -/
def lazy_convoy_t.validate_freight_summary (s : lazy_convoy_t) (h : update_hooks_t) :
    lazy_convoy_t :=
  if s.is_valid &&& cd_freight_summary = 0 then
    { s with is_valid := s.is_valid ||| cd_freight_summary
             freight := h.update_freight_summary s.freight }
  else s

/-- `existing_convoy_t::validate_weight_summary()`. -/
def lazy_convoy_t.validate_weight_summary (s : lazy_convoy_t) (h : update_hooks_t) :
    lazy_convoy_t :=
  if s.is_valid &&& cd_weight_summary = 0 then
    { s with is_valid := s.is_valid ||| cd_weight_summary
             weight := h.update_weight_summary s.weight }
  else s

/-- Number of update-hook invocations one call of
`validate_vehicle_summary` performs on state `s` (1 when the bit is
clear, else 0). -/
def lazy_convoy_t.validate_vehicle_summary_calls (s : lazy_convoy_t) : Nat :=
  if s.is_valid &&& cd_vehicle_summary = 0 then 1 else 0

/-- Hook invocations of one `validate_adverse_summary` call. -/
def lazy_convoy_t.validate_adverse_summary_calls (s : lazy_convoy_t) : Nat :=
  if s.is_valid &&& cd_adverse_summary = 0 then 1 else 0

/-- Hook invocations of one `validate_freight_summary` call. -/
def lazy_convoy_t.validate_freight_summary_calls (s : lazy_convoy_t) : Nat :=
  if s.is_valid &&& cd_freight_summary = 0 then 1 else 0

/-- Hook invocations of one `validate_weight_summary` call. -/
def lazy_convoy_t.validate_weight_summary_calls (s : lazy_convoy_t) : Nat :=
  if s.is_valid &&& cd_weight_summary = 0 then 1 else 0

/-- The validation prologue shared by the four public queries of
`lazy_convoy_t`: `validate_vehicle_summary(); validate_adverse_summary();`. -/
def lazy_convoy_t.validate_chain (s : lazy_convoy_t) (h : update_hooks_t) :
    lazy_convoy_t :=
  (s.validate_vehicle_summary h).validate_adverse_summary h

/-- `lazy_convoy_t::calc_max_speed`: validate vehicle then adverse
summaries, then delegate to `convoy_t::calc_max_speed` (whose body lives
in convoy.cc, outside these sources; it is a parameter `base` reading the
state's summaries).  The returned pair is the mutated object state and
the result. -/
def lazy_convoy_t.calc_max_speed (s : lazy_convoy_t) (h : update_hooks_t)
    (base : lazy_convoy_t → weight_summary_t → Int) (weight : weight_summary_t) :
    lazy_convoy_t × Int :=
  let s1 := s.validate_vehicle_summary h
  let s2 := s1.validate_adverse_summary h
  (s2, base s2 weight)

/-- `lazy_convoy_t::calc_max_weight`, structured like `calc_max_speed`. -/
def lazy_convoy_t.calc_max_weight (s : lazy_convoy_t) (h : update_hooks_t)
    (base : lazy_convoy_t → Int → Int) (sin_alpha : Int) :
    lazy_convoy_t × Int :=
  let s1 := s.validate_vehicle_summary h
  let s2 := s1.validate_adverse_summary h
  (s2, base s2 sin_alpha)

/-- `lazy_convoy_t::calc_max_starting_weight`, structured like
`calc_max_speed`. -/
def lazy_convoy_t.calc_max_starting_weight (s : lazy_convoy_t) (h : update_hooks_t)
    (base : lazy_convoy_t → Int → Int) (sin_alpha : Int) :
    lazy_convoy_t × Int :=
  let s1 := s.validate_vehicle_summary h
  let s2 := s1.validate_adverse_summary h
  (s2, base s2 sin_alpha)

/-- The value arguments of `convoy_t::calc_move`; `akt_speed` and
`sp_soll` are in/out, so the base engine returns their new values. -/
structure calc_move_args_t where
  delta_t : Int
  simtime_factor : ℚ
  weight : weight_summary_t
  akt_speed_soll : Int
  next_speed_limit : Int
  steps_til_limit : Int
  steps_til_brake : Int
  akt_speed : Int
  sp_soll : Int

/-- `lazy_convoy_t::calc_move`: validate vehicle then adverse summaries,
then delegate to `convoy_t::calc_move` (a parameter, as its body is in
convoy.cc). -/
def lazy_convoy_t.calc_move (s : lazy_convoy_t) (h : update_hooks_t)
    (base : lazy_convoy_t → calc_move_args_t → Int × Int) (args : calc_move_args_t) :
    lazy_convoy_t × (Int × Int) :=
  let s1 := s.validate_vehicle_summary h
  let s2 := s1.validate_adverse_summary h
  (s2, base s2 args)

lemma testBit_mask59 (i : Nat) :
    Nat.testBit 59 i = decide (i = 0 ∨ i = 1 ∨ i = 3 ∨ i = 4 ∨ i = 5) := by
  by_cases h : i < 6
  · interval_cases i <;> decide
  · have h6 : 6 ≤ i := Nat.le_of_not_lt h
    have h59 : Nat.testBit 59 i = false :=
      Nat.testBit_lt_two_pow
        (lt_of_lt_of_le (by norm_num) (Nat.pow_le_pow_right (by norm_num) h6))
    rw [h59]
    symm
    simp only [decide_eq_false_iff_not]
    omega

lemma testBit_mask10 (i : Nat) :
    Nat.testBit 10 i = decide (i = 1 ∨ i = 3) := by
  by_cases h : i < 4
  · interval_cases i <;> decide
  · have h4 : 4 ≤ i := Nat.le_of_not_lt h
    have h10 : Nat.testBit 10 i = false :=
      Nat.testBit_lt_two_pow
        (lt_of_lt_of_le (by norm_num) (Nat.pow_le_pow_right (by norm_num) h4))
    rw [h10]
    symm
    simp only [decide_eq_false_iff_not]
    omega

/-- C1: `invalidate_vehicle_summary` clears exactly the validity bits of
vehicle_summary (bit 0), adverse_summary (bit 1), weight_summary (bit 3),
starting_force (bit 4) and continuous_power (bit 5), leaving the
freight_summary bit (bit 2) and all other bits unchanged; and
`invalidate_adverse_summary` clears exactly the adverse_summary and
weight_summary bits (1 and 3), leaving all other bits unchanged. -/
theorem C1_invalidation_masks (s : lazy_convoy_t) (i : Nat) :
    ((s.invalidate_vehicle_summary).is_valid.testBit i =
      if i = 0 ∨ i = 1 ∨ i = 3 ∨ i = 4 ∨ i = 5 then false else s.is_valid.testBit i) ∧
    ((s.invalidate_adverse_summary).is_valid.testBit i =
      if i = 1 ∨ i = 3 then false else s.is_valid.testBit i) := by
  constructor
  · have hm : (cd_vehicle_summary ||| cd_adverse_summary ||| cd_weight_summary
        ||| cd_starting_force ||| cd_continuous_power) = 59 := by decide
    show (s.is_valid.ldiff (cd_vehicle_summary ||| cd_adverse_summary
        ||| cd_weight_summary ||| cd_starting_force ||| cd_continuous_power)).testBit i
        = _
    rw [hm, Nat.testBit_ldiff, testBit_mask59]
    by_cases hp : i = 0 ∨ i = 1 ∨ i = 3 ∨ i = 4 ∨ i = 5
    · rw [if_pos hp, decide_eq_true hp]
      simp
    · rw [if_neg hp, decide_eq_false hp]
      simp
  · have hm : (cd_adverse_summary ||| cd_weight_summary) = 10 := by decide
    show (s.is_valid.ldiff (cd_adverse_summary ||| cd_weight_summary)).testBit i = _
    rw [hm, Nat.testBit_ldiff, testBit_mask10]
    by_cases hp : i = 1 ∨ i = 3
    · rw [if_pos hp, decide_eq_true hp]
      simp
    · rw [if_neg hp, decide_eq_false hp]
      simp

lemma lor_land_self (x m : Nat) : (x ||| m) &&& m = m := by
  apply Nat.eq_of_testBit_eq
  intro i
  rw [Nat.testBit_land, Nat.testBit_lor]
  cases x.testBit i <;> cases m.testBit i <;> rfl

lemma validate_vehicle_bit_set (s : lazy_convoy_t) (h : update_hooks_t) :
    (s.validate_vehicle_summary h).is_valid &&& cd_vehicle_summary ≠ 0 := by
  rw [lazy_convoy_t.validate_vehicle_summary]
  by_cases hb : s.is_valid &&& cd_vehicle_summary = 0
  · rw [if_pos hb]
    show (s.is_valid ||| cd_vehicle_summary) &&& cd_vehicle_summary ≠ 0
    rw [lor_land_self]
    decide
  · rw [if_neg hb]
    exact hb

lemma validate_adverse_bit_set (s : lazy_convoy_t) (h : update_hooks_t) :
    (s.validate_adverse_summary h).is_valid &&& cd_adverse_summary ≠ 0 := by
  rw [lazy_convoy_t.validate_adverse_summary]
  by_cases hb : s.is_valid &&& cd_adverse_summary = 0
  · rw [if_pos hb]
    show (s.is_valid ||| cd_adverse_summary) &&& cd_adverse_summary ≠ 0
    rw [lor_land_self]
    decide
  · rw [if_neg hb]
    exact hb

lemma validate_freight_bit_set (s : lazy_convoy_t) (h : update_hooks_t) :
    (s.validate_freight_summary h).is_valid &&& cd_freight_summary ≠ 0 := by
  rw [lazy_convoy_t.validate_freight_summary]
  by_cases hb : s.is_valid &&& cd_freight_summary = 0
  · rw [if_pos hb]
    show (s.is_valid ||| cd_freight_summary) &&& cd_freight_summary ≠ 0
    rw [lor_land_self]
    decide
  · rw [if_neg hb]
    exact hb

lemma validate_weight_bit_set (s : lazy_convoy_t) (h : update_hooks_t) :
    (s.validate_weight_summary h).is_valid &&& cd_weight_summary ≠ 0 := by
  rw [lazy_convoy_t.validate_weight_summary]
  by_cases hb : s.is_valid &&& cd_weight_summary = 0
  · rw [if_pos hb]
    show (s.is_valid ||| cd_weight_summary) &&& cd_weight_summary ≠ 0
    rw [lor_land_self]
    decide
  · rw [if_neg hb]
    exact hb

lemma validate_vehicle_of_bit_set (s : lazy_convoy_t) (h : update_hooks_t)
    (hb : s.is_valid &&& cd_vehicle_summary ≠ 0) :
    s.validate_vehicle_summary h = s := by
  rw [lazy_convoy_t.validate_vehicle_summary, if_neg hb]

lemma validate_adverse_of_bit_set (s : lazy_convoy_t) (h : update_hooks_t)
    (hb : s.is_valid &&& cd_adverse_summary ≠ 0) :
    s.validate_adverse_summary h = s := by
  rw [lazy_convoy_t.validate_adverse_summary, if_neg hb]

lemma validate_freight_of_bit_set (s : lazy_convoy_t) (h : update_hooks_t)
    (hb : s.is_valid &&& cd_freight_summary ≠ 0) :
    s.validate_freight_summary h = s := by
  rw [lazy_convoy_t.validate_freight_summary, if_neg hb]

lemma validate_weight_of_bit_set (s : lazy_convoy_t) (h : update_hooks_t)
    (hb : s.is_valid &&& cd_weight_summary ≠ 0) :
    s.validate_weight_summary h = s := by
  rw [lazy_convoy_t.validate_weight_summary, if_neg hb]

/-- C7: for each of the four validity checks, two consecutive calls with
no intervening invalidation invoke the update hook at most once in
total — the second call finds the bit set, performs no recomputation
(hook-call count 0) and leaves the state unchanged. -/
theorem C7_validate_idempotent (h : update_hooks_t) (s : lazy_convoy_t) :
    ((s.validate_vehicle_summary h).validate_vehicle_summary h
        = s.validate_vehicle_summary h ∧
      (s.validate_vehicle_summary h).validate_vehicle_summary_calls = 0 ∧
      s.validate_vehicle_summary_calls
        + (s.validate_vehicle_summary h).validate_vehicle_summary_calls ≤ 1) ∧
    ((s.validate_adverse_summary h).validate_adverse_summary h
        = s.validate_adverse_summary h ∧
      (s.validate_adverse_summary h).validate_adverse_summary_calls = 0 ∧
      s.validate_adverse_summary_calls
        + (s.validate_adverse_summary h).validate_adverse_summary_calls ≤ 1) ∧
    ((s.validate_freight_summary h).validate_freight_summary h
        = s.validate_freight_summary h ∧
      (s.validate_freight_summary h).validate_freight_summary_calls = 0 ∧
      s.validate_freight_summary_calls
        + (s.validate_freight_summary h).validate_freight_summary_calls ≤ 1) ∧
    ((s.validate_weight_summary h).validate_weight_summary h
        = s.validate_weight_summary h ∧
      (s.validate_weight_summary h).validate_weight_summary_calls = 0 ∧
      s.validate_weight_summary_calls
        + (s.validate_weight_summary h).validate_weight_summary_calls ≤ 1) := by
  have hv0 : (s.validate_vehicle_summary h).validate_vehicle_summary_calls = 0 := by
    rw [lazy_convoy_t.validate_vehicle_summary_calls,
      if_neg (validate_vehicle_bit_set s h)]
  have ha0 : (s.validate_adverse_summary h).validate_adverse_summary_calls = 0 := by
    rw [lazy_convoy_t.validate_adverse_summary_calls,
      if_neg (validate_adverse_bit_set s h)]
  have hf0 : (s.validate_freight_summary h).validate_freight_summary_calls = 0 := by
    rw [lazy_convoy_t.validate_freight_summary_calls,
      if_neg (validate_freight_bit_set s h)]
  have hw0 : (s.validate_weight_summary h).validate_weight_summary_calls = 0 := by
    rw [lazy_convoy_t.validate_weight_summary_calls,
      if_neg (validate_weight_bit_set s h)]
  refine ⟨⟨?_, hv0, ?_⟩, ⟨?_, ha0, ?_⟩, ⟨?_, hf0, ?_⟩, ⟨?_, hw0, ?_⟩⟩
  · exact validate_vehicle_of_bit_set _ h (validate_vehicle_bit_set s h)
  · rw [hv0, lazy_convoy_t.validate_vehicle_summary_calls]
    split <;> omega
  · exact validate_adverse_of_bit_set _ h (validate_adverse_bit_set s h)
  · rw [ha0, lazy_convoy_t.validate_adverse_summary_calls]
    split <;> omega
  · exact validate_freight_of_bit_set _ h (validate_freight_bit_set s h)
  · rw [hf0, lazy_convoy_t.validate_freight_summary_calls]
    split <;> omega
  · exact validate_weight_of_bit_set _ h (validate_weight_bit_set s h)
  · rw [hw0, lazy_convoy_t.validate_weight_summary_calls]
    split <;> omega

lemma land_lor_ne_zero (x m n : Nat) (hx : x &&& m ≠ 0) : (x ||| n) &&& m ≠ 0 := by
  intro h0
  apply hx
  apply Nat.eq_of_testBit_eq
  intro i
  have hi := congrArg (fun k => Nat.testBit k i) h0
  simp only [Nat.testBit_land, Nat.testBit_lor, Nat.zero_testBit] at hi ⊢
  cases hxb : x.testBit i <;> cases hmb : m.testBit i <;> simp_all

lemma land_lor_of_land_eq_zero (x m n : Nat) (hnm : n &&& m = 0) :
    (x ||| n) &&& m = x &&& m := by
  apply Nat.eq_of_testBit_eq
  intro i
  have hi := congrArg (fun k => Nat.testBit k i) hnm
  simp only [Nat.testBit_land, Nat.testBit_lor, Nat.zero_testBit] at hi
  rw [Nat.testBit_land, Nat.testBit_lor, Nat.testBit_land]
  cases hx : x.testBit i <;> cases hm : m.testBit i <;> cases hn : n.testBit i <;>
    simp_all

lemma validate_adverse_vehicle_field (s : lazy_convoy_t) (h : update_hooks_t) :
    (s.validate_adverse_summary h).vehicle = s.vehicle := by
  rw [lazy_convoy_t.validate_adverse_summary]
  split <;> rfl

lemma validate_vehicle_adverse_field (s : lazy_convoy_t) (h : update_hooks_t) :
    (s.validate_vehicle_summary h).adverse = s.adverse := by
  rw [lazy_convoy_t.validate_vehicle_summary]
  split <;> rfl

lemma validate_vehicle_preserves_adverse_bit (s : lazy_convoy_t) (h : update_hooks_t) :
    (s.validate_vehicle_summary h).is_valid &&& cd_adverse_summary
      = s.is_valid &&& cd_adverse_summary := by
  rw [lazy_convoy_t.validate_vehicle_summary]
  split
  · show (s.is_valid ||| cd_vehicle_summary) &&& cd_adverse_summary = _
    exact land_lor_of_land_eq_zero _ _ _ (by decide)
  · rfl

lemma validate_adverse_preserves_vehicle_bit (s : lazy_convoy_t) (h : update_hooks_t)
    (hx : s.is_valid &&& cd_vehicle_summary ≠ 0) :
    (s.validate_adverse_summary h).is_valid &&& cd_vehicle_summary ≠ 0 := by
  rw [lazy_convoy_t.validate_adverse_summary]
  split
  · show (s.is_valid ||| cd_adverse_summary) &&& cd_vehicle_summary ≠ 0
    exact land_lor_ne_zero _ _ _ hx
  · exact hx

/-- C2: each public query of `lazy_convoy_t` (`calc_max_speed`,
`calc_max_weight`, `calc_max_starting_weight`, `calc_move`) first
validates vehicle_summary and then adverse_summary — computing a summary
through its update hook exactly when its validity bit is clear — and
only then delegates to the base `convoy_t` implementation, which
therefore always runs on a state whose vehicle and adverse validity bits
are set. -/
theorem C2_validate_before_read (h : update_hooks_t) (s : lazy_convoy_t)
    (baseSpeed : lazy_convoy_t → weight_summary_t → Int)
    (baseWeight baseStarting : lazy_convoy_t → Int → Int)
    (baseMove : lazy_convoy_t → calc_move_args_t → Int × Int)
    (w : weight_summary_t) (sin_alpha : Int) (args : calc_move_args_t) :
    ((s.validate_chain h).is_valid &&& cd_vehicle_summary ≠ 0 ∧
      (s.validate_chain h).is_valid &&& cd_adverse_summary ≠ 0) ∧
    (s.is_valid &&& cd_vehicle_summary = 0 →
      (s.validate_chain h).vehicle = h.update_vehicle_summary s.vehicle) ∧
    (s.is_valid &&& cd_vehicle_summary ≠ 0 →
      (s.validate_chain h).vehicle = s.vehicle) ∧
    (s.is_valid &&& cd_adverse_summary = 0 →
      (s.validate_chain h).adverse = h.update_adverse_summary s.adverse) ∧
    (s.is_valid &&& cd_adverse_summary ≠ 0 →
      (s.validate_chain h).adverse = s.adverse) ∧
    s.calc_max_speed h baseSpeed w
      = (s.validate_chain h, baseSpeed (s.validate_chain h) w) ∧
    s.calc_max_weight h baseWeight sin_alpha
      = (s.validate_chain h, baseWeight (s.validate_chain h) sin_alpha) ∧
    s.calc_max_starting_weight h baseStarting sin_alpha
      = (s.validate_chain h, baseStarting (s.validate_chain h) sin_alpha) ∧
    s.calc_move h baseMove args
      = (s.validate_chain h, baseMove (s.validate_chain h) args) := by
  have hchain : s.validate_chain h
      = (s.validate_vehicle_summary h).validate_adverse_summary h := rfl
  refine ⟨⟨?_, ?_⟩, ?_, ?_, ?_, ?_, rfl, rfl, rfl, rfl⟩
  · rw [hchain]
    exact validate_adverse_preserves_vehicle_bit _ h (validate_vehicle_bit_set s h)
  · rw [hchain]
    exact validate_adverse_bit_set _ h
  · intro hb
    rw [hchain, validate_adverse_vehicle_field,
      lazy_convoy_t.validate_vehicle_summary, if_pos hb]
  · intro hb
    rw [hchain, validate_adverse_vehicle_field, validate_vehicle_of_bit_set s h hb]
  · intro hb
    have hb1 : (s.validate_vehicle_summary h).is_valid &&& cd_adverse_summary = 0 := by
      rw [validate_vehicle_preserves_adverse_bit]
      exact hb
    rw [hchain, lazy_convoy_t.validate_adverse_summary, if_pos hb1,
      validate_vehicle_adverse_field]
  · intro hb
    have hb1 : (s.validate_vehicle_summary h).is_valid &&& cd_adverse_summary ≠ 0 := by
      rw [validate_vehicle_preserves_adverse_bit]
      exact hb
    rw [hchain, validate_adverse_of_bit_set _ h hb1, validate_vehicle_adverse_field]

/-- A concrete `lazy_convoy_t` state with all validity bits clear, used
to exercise the caching-layer theorems. -/
def sample_state : lazy_convoy_t :=
  { vehicle := { length := 0, tiles := 0, weight := 0, max_speed := 300000 }
    adverse := { cf := 0, fr := 0, br := 0, max_speed := 300000 }
    freight := { min_freight_weight := 0, max_freight_weight := 0 }
    weight := { weight := 0, weight_cos := 0, weight_sin := 0 }
    starting_force := 0
    continuous_power := 0
    is_valid := 0 }

/-- Concrete update hooks used to exercise the caching-layer theorems. -/
def sample_hooks : update_hooks_t :=
  { update_vehicle_summary := fun v => { v with length := v.length + 1 }
    update_adverse_summary := id
    update_freight_summary := id
    update_weight_summary := id }

/-- C2 witness: on a state with all bits clear, the validation prologue
recomputes the vehicle summary through the hook. -/
theorem C2_validate_before_read_witness :
    (sample_state.is_valid &&& cd_vehicle_summary = 0) ∧
    (sample_state.validate_chain sample_hooks).vehicle
      = sample_hooks.update_vehicle_summary sample_state.vehicle :=
  ⟨by decide,
   (C2_validate_before_read sample_hooks sample_state (fun _ _ => 0) (fun _ _ => 0)
      (fun _ _ => 0) (fun _ _ => (0, 0)) { weight := 0, weight_cos := 0, weight_sin := 0 }
      0
      { delta_t := 0, simtime_factor := 0,
        weight := { weight := 0, weight_cos := 0, weight_sin := 0 },
        akt_speed_soll := 0, next_speed_limit := 0, steps_til_limit := 0,
        steps_til_brake := 0, akt_speed := 0, sp_soll := 0 }).2.1 (by decide)⟩

/-- CF_TRACK from convoy.h: air-resistance constant for track-like ways;
`float32e8_t((uint32) 13)` modelled as the exact rational 13. -/
def CF_TRACK : ℚ := 13

/-- CF_MAGLEV from convoy.h. -/
def CF_MAGLEV : ℚ := 10

/-- CF_ROAD from convoy.h: `float32e8_t((uint32) 252, (uint32) 100)`,
i.e. 252/100. -/
def CF_ROAD : ℚ := 252 / 100

/-- CF_WATER from convoy.h. -/
def CF_WATER : ℚ := 25

/-- CF_AIR from convoy.h. -/
def CF_AIR : ℚ := 1

/-- FR_MAGLEV from convoy.h: rolling-resistance constant 15/10000. -/
def FR_MAGLEV : ℚ := 15 / 10000

/-- FR_TRACK from convoy.h: 51/10000. -/
def FR_TRACK : ℚ := 51 / 10000

/-- FR_ROAD from convoy.h: 15/1000. -/
def FR_ROAD : ℚ := 15 / 1000

/-- FR_WATER from convoy.h: 1/1000. -/
def FR_WATER : ℚ := 1 / 1000

/-- FR_AIR from convoy.h: 1/1000. -/
def FR_AIR : ℚ := 1 / 1000

/-- The members of `enum waytype_t` (simtypes.h) that the `switch` of
`adverse_summary_t::set_by_waytype` names, plus `road_wt` as the
representative of its `default` branch (every other way type takes the
same `default` branch as `road_wt`). -/
inductive waytype_t where
  | track_wt
  | narrowgauge_wt
  | overheadlines_wt
  | tram_wt
  | monorail_wt
  | maglev_wt
  | air_wt
  | water_wt
  | road_wt
  deriving DecidableEq, Repr

/-- `adverse_summary_t::set_by_waytype(waytype_t waytype)`: selects `cf`,
`fr` and `br` by way type (`max_speed` is not touched).  The `br`
literals are `float32e8_t(n, d)` values, i.e. n/d. -/
def adverse_summary_t.set_by_waytype (s : adverse_summary_t) (waytype : waytype_t) :
    adverse_summary_t :=
  match waytype with
  | .air_wt => { s with cf := CF_AIR, fr := FR_AIR, br := (2 : ℚ) / 1 }
  | .water_wt => { s with cf := CF_WATER, fr := FR_WATER, br := (1 : ℚ) / 10 }
  | .track_wt | .narrowgauge_wt | .overheadlines_wt =>
      { s with cf := CF_TRACK, fr := FR_TRACK, br := (1 : ℚ) / 2 }
  | .tram_wt | .monorail_wt =>
      { s with cf := CF_TRACK, fr := FR_TRACK, br := (1 : ℚ) / 1 }
  | .maglev_wt => { s with cf := CF_MAGLEV, fr := FR_MAGLEV, br := (12 : ℚ) / 10 }
  | .road_wt => { s with cf := CF_ROAD, fr := FR_ROAD, br := (1 : ℚ) / 1 }

/-- C6: `set_by_waytype` selects `cf`, `fr` and `br` by way type, and the
way-type classes rail, tram, road, water, air and maglev each receive
distinct tabulated (cf, fr, br) triples. -/
theorem C6_set_by_waytype_constants (s : adverse_summary_t) :
    ((s.set_by_waytype .track_wt).cf = CF_TRACK ∧
      (s.set_by_waytype .track_wt).fr = FR_TRACK) ∧
    ((s.set_by_waytype .tram_wt).cf = CF_TRACK ∧
      (s.set_by_waytype .tram_wt).fr = FR_TRACK) ∧
    ((s.set_by_waytype .road_wt).cf = CF_ROAD ∧
      (s.set_by_waytype .road_wt).fr = FR_ROAD) ∧
    ((s.set_by_waytype .water_wt).cf = CF_WATER ∧
      (s.set_by_waytype .water_wt).fr = FR_WATER) ∧
    ((s.set_by_waytype .air_wt).cf = CF_AIR ∧
      (s.set_by_waytype .air_wt).fr = FR_AIR) ∧
    ((s.set_by_waytype .maglev_wt).cf = CF_MAGLEV ∧
      (s.set_by_waytype .maglev_wt).fr = FR_MAGLEV) ∧
    List.Pairwise (fun a b => a ≠ b)
      ([waytype_t.track_wt, .tram_wt, .road_wt, .water_wt, .air_wt, .maglev_wt].map
        fun w => ((s.set_by_waytype w).cf, (s.set_by_waytype w).fr,
          (s.set_by_waytype w).br)) := by
  refine ⟨⟨rfl, rfl⟩, ⟨rfl, rfl⟩, ⟨rfl, rfl⟩, ⟨rfl, rfl⟩, ⟨rfl, rfl⟩, ⟨rfl, rfl⟩, ?_⟩
  show List.Pairwise (fun a b => a ≠ b)
    [((CF_TRACK, FR_TRACK, (1 : ℚ) / 2) : ℚ × ℚ × ℚ),
     (CF_TRACK, FR_TRACK, (1 : ℚ) / 1),
     (CF_ROAD, FR_ROAD, (1 : ℚ) / 1),
     (CF_WATER, FR_WATER, (1 : ℚ) / 10),
     (CF_AIR, FR_AIR, (2 : ℚ) / 1),
     (CF_MAGLEV, FR_MAGLEV, (12 : ℚ) / 10)]
  simp only [List.pairwise_cons, List.Pairwise.nil, and_true, List.not_mem_nil,
    IsEmpty.forall_iff, implies_true]
  refine ⟨?_, ?_, ?_, ?_, ?_⟩ <;>
    · intro t ht
      fin_cases ht <;>
        norm_num [Prod.ext_iff, CF_TRACK, CF_ROAD, CF_WATER, CF_AIR, CF_MAGLEV,
          FR_TRACK, FR_ROAD, FR_WATER, FR_AIR, FR_MAGLEV]

/-- Modelled from the spec: the conversion of a `float32e8_t` value to
`sint32` (the type's body, `utils/float32e8_t.h`, is not among these
sources).  Per the spec the type is an exact deterministic rational, and
its conversions round "via an added half-unit bias before truncation";
a C truncation discards the fractional part towards zero. -/
def float32e8_to_sint32 (q : ℚ) : Int :=
  if q < 0 then -⌊-q⌋ else ⌊q⌋

/-- `float32e8_t::half`, the round-half-up bias constant. -/
def float32e8_half : ℚ := 1 / 2

/-- Modelled from the spec: VEHICLE_SPEED_FACTOR (simunits.h, not among
these sources), the scale between internal simutrans speed units and
physical speed; its standard value 80 is used.  The round-trip claims
only need the two conversion constants to be exact reciprocals, which
holds for any nonzero value. -/
def VEHICLE_SPEED_FACTOR : ℚ := 80

/-- `simspeed2ms`: `float32e8_t(10 * VEHICLE_SPEED_FACTOR, 36 * 1024)`. -/
def simspeed2ms : ℚ := 10 * VEHICLE_SPEED_FACTOR / (36 * 1024)

/-- `ms2simspeed`: `float32e8_t(36 * 1024, 10 * VEHICLE_SPEED_FACTOR)`. -/
def ms2simspeed : ℚ := 36 * 1024 / (10 * VEHICLE_SPEED_FACTOR)

/-- `speed_to_v(const sint32 speed)`: `simspeed2ms * speed`. -/
def speed_to_v (speed : Int) : ℚ := simspeed2ms * speed

/-- `v_to_speed(const float32e8_t &v)`:
`(sint32)(ms2simspeed * v + float32e8_t::half)`. -/
def v_to_speed (v : ℚ) : Int := float32e8_to_sint32 (ms2simspeed * v + float32e8_half)

/-- C5 counterexample: the round trip is not the identity on every
representable `sint32`: at speed −1 the half-unit bias followed by a
truncation towards zero yields 0, not −1. -/
theorem C5_roundtrip_counterexample : v_to_speed (speed_to_v (-1)) ≠ -1 := by
  have h1 : speed_to_v (-1) = -(25 / 1152 : ℚ) := by
    norm_num [speed_to_v, simspeed2ms, VEHICLE_SPEED_FACTOR]
  have h2 : ms2simspeed * -(25 / 1152 : ℚ) + float32e8_half = -(1 / 2 : ℚ) := by
    norm_num [ms2simspeed, VEHICLE_SPEED_FACTOR, float32e8_half]
  rw [v_to_speed, h1, h2, float32e8_to_sint32, if_pos (by norm_num)]
  norm_num

/-- C5 (amended): for every nonnegative `sint32` speed `s`, converting to
internal m/s and back reproduces `s` exactly:
`v_to_speed(speed_to_v(s)) = s`, the rounding being round-to-nearest via
the added half-unit bias before truncation. -/
theorem C5_roundtrip_nonneg (s : Int) (h : 0 ≤ s) :
    v_to_speed (speed_to_v s) = s := by
  have hmul : ms2simspeed * speed_to_v s = (s : ℚ) := by
    rw [speed_to_v, ← mul_assoc]
    have : ms2simspeed * simspeed2ms = 1 := by
      norm_num [ms2simspeed, simspeed2ms, VEHICLE_SPEED_FACTOR]
    rw [this, one_mul]
  rw [v_to_speed, hmul, float32e8_to_sint32]
  have hpos : ¬((s : ℚ) + float32e8_half < 0) := by
    rw [float32e8_half]
    push_neg
    have : (0 : ℚ) ≤ (s : ℚ) := by exact_mod_cast h
    linarith
  rw [if_neg hpos, float32e8_half]
  rw [Int.floor_int_add]
  norm_num

/-- C5 witness: the round trip at the concrete speed 3. -/
theorem C5_roundtrip_nonneg_witness :
    (0 : Int) ≤ 3 ∧ v_to_speed (speed_to_v 3) = 3 :=
  ⟨by decide, C5_roundtrip_nonneg 3 (by decide)⟩

/-- `convoy_t::get_force(const float32e8_t &speed)`:
`sint32 v = (sint32)abs(speed);
return (v == 0) ? get_starting_force() : get_force_summary(v) * 1000;`.
The virtual `get_starting_force` and `get_force_summary` are implemented
by descendants outside convoy.h, so they are parameters. -/
def convoy_t_get_force (starting_force : Int) (force_summary : Int → Int)
    (speed : ℚ) : Int :=
  let v : Int := float32e8_to_sint32 |speed|
  if v = 0 then starting_force else force_summary v * 1000

lemma float32e8_to_sint32_abs (q : ℚ) : float32e8_to_sint32 |q| = ⌊|q|⌋ := by
  rw [float32e8_to_sint32, if_neg]
  push_neg
  exact abs_nonneg q

/-- C10: `convoy_t::get_force` returns the starting force for every speed
whose absolute value truncates to zero (magnitude below 1 m/s), and for
every other speed returns `get_force_summary` applied to the truncated
magnitude, times 1000; the result depends only on the magnitude of the
speed, never on its sign. -/
theorem C10_get_force (sf : Int) (fs : Int → Int) (speed : ℚ) :
    (|speed| < 1 → convoy_t_get_force sf fs speed = sf) ∧
    (1 ≤ |speed| → convoy_t_get_force sf fs speed = fs ⌊|speed|⌋ * 1000) ∧
    convoy_t_get_force sf fs (-speed) = convoy_t_get_force sf fs speed := by
  refine ⟨?_, ?_, ?_⟩
  · intro hlt
    rw [convoy_t_get_force]
    have h0 : float32e8_to_sint32 |speed| = 0 := by
      rw [float32e8_to_sint32_abs]
      rw [Int.floor_eq_zero_iff]
      exact ⟨abs_nonneg speed, hlt⟩
    simp only [h0, if_pos]
  · intro hge
    rw [convoy_t_get_force]
    have hne : float32e8_to_sint32 |speed| ≠ 0 := by
      rw [float32e8_to_sint32_abs]
      have h1 : (1 : Int) ≤ ⌊|speed|⌋ := by
        rw [Int.le_floor]
        exact_mod_cast hge
      omega
    rw [float32e8_to_sint32_abs] at hne ⊢
    simp only [if_neg hne]
  · rw [convoy_t_get_force, convoy_t_get_force, abs_neg]

/-- C10 witness: at speed 3/2 m/s the force is the per-speed lookup at
the truncated magnitude 1, times 1000. -/
theorem C10_get_force_witness :
    (1 ≤ |(3 / 2 : ℚ)|) ∧
    convoy_t_get_force 7 (fun v => v + 1) (3 / 2)
      = (⌊|(3 / 2 : ℚ)|⌋ + 1) * 1000 :=
  have habs : |(3 / 2 : ℚ)| = 3 / 2 := abs_of_nonneg (by norm_num)
  ⟨by rw [habs]; norm_num,
   (C10_get_force 7 (fun v => v + 1) (3 / 2)).2.1 (by rw [habs]; norm_num)⟩

/-- Modelled from the spec: the fixed iteration bound of
`convoy_t::calc_max_speed`'s search (the body lives in convoy.cc, which
is not among these sources; the spec requires "search loops over the
force curve ... capped by a fixed iteration bound"). -/
def MAX_SPEED_SEARCH_DEPTH : Nat := 32

/-- Modelled from the spec: the bounded iterative/bisection search of
`calc_max_speed` over the engine force-vs-speed curve.  `force` is the
virtual per-speed lookup (`get_force_summary`) — non-analytic, so an
arbitrary function here — and `resistance` the air-drag plus
roll/slope-resistance side of the force balance.  Returns the speed
found together with the number of force-curve evaluations performed. -/
def bisect_max_speed (force resistance : Int → Int) :
    Nat → Int → Int → Int × Nat
  | 0, lo, _ => (lo, 0)
  | fuel + 1, lo, hi =>
      let mid := (lo + hi) / 2
      if resistance mid ≤ force mid then
        let r := bisect_max_speed force resistance fuel mid hi
        (r.1, r.2 + 1)
      else
        let r := bisect_max_speed force resistance fuel lo mid
        (r.1, r.2 + 1)

/-- Modelled from the spec: `calc_max_speed` searches the speed interval
from 0 up to the convoy's configured speed cap with the fixed-depth
bisection. -/
def calc_max_speed_search (force resistance : Int → Int) (max_speed_cap : Int) :
    Int × Nat :=
  bisect_max_speed force resistance MAX_SPEED_SEARCH_DEPTH 0 max_speed_cap

lemma bisect_max_speed_calls (force resistance : Int → Int) :
    ∀ (fuel : Nat) (lo hi : Int),
      (bisect_max_speed force resistance fuel lo hi).2 ≤ fuel := by
  intro fuel
  induction fuel with
  | zero => intro lo hi; exact Nat.le_refl 0
  | succ n ih =>
      intro lo hi
      simp only [bisect_max_speed]
      split
      · exact Nat.succ_le_succ (ih _ _)
      · exact Nat.succ_le_succ (ih _ _)

/-- C8: the `calc_max_speed` search terminates on every input: for every
engine force curve (however pathological), every resistance curve and
every speed cap, its bisection performs at most MAX_SPEED_SEARCH_DEPTH
force-curve evaluations, so the computation is finite. -/
theorem C8_calc_max_speed_bounded (force resistance : Int → Int)
    (max_speed_cap : Int) :
    (calc_max_speed_search force resistance max_speed_cap).2
      ≤ MAX_SPEED_SEARCH_DEPTH :=
  bisect_max_speed_calls force resistance MAX_SPEED_SEARCH_DEPTH 0 max_speed_cap
